import Mathlib

/-!
Verification of the Agency Directory Acquisition & Resolution Pipeline
(foiacreator repository).

The definitions below are shallow embeddings of the TypeScript source:
  - string helpers model the JavaScript string operations
    (`toLowerCase`, `includes`, `replace` of the first occurrence,
    `split("?")[0]`, `trim`) as kernel-computable functions on `List Char`;
  - `findAgencyEmail` / `resolve` embed the resolver from
    `SubmitStep.tsx` and the submit route (three `find` tiers, where a
    tier's hit is returned only when the found record's `email` is truthy);
  - `extractEmail` embeds the `page.evaluate` extraction body of the
    scrapers (mailto priority, then a text scan with the regex
    `[\w.-]+@[\w.-]+\.(gov|mil|us)/gi`);
  - the pagination loops embed the cached route fetcher and the
    standalone `fetchAllAgencies` script loop;
  - `mergeEntry` embeds the merge script's field reconciliation;
  - the scraper pipelines embed the batched parallel scraper and the
    sequential scraper's push-on-success loop;
  - `listAgencies` embeds the directory listing endpoint.
-/

namespace FoiaCreator

/-! ## String helpers: kernel-computable models of the JS string operations -/

/-- Model of `String.prototype.toLowerCase` (ASCII range, which is all the
source data uses). -/
def lowerStr (s : String) : String :=
  ⟨s.data.map Char.toLower⟩

/-- `strStartsWith needle hay` holds when `needle` is a prefix of `hay`. -/
def strStartsWith : List Char → List Char → Bool
  | [], _ => true
  | _ :: _, [] => false
  | a :: as, b :: bs => a == b && strStartsWith as bs

/-- `strContainsList needle hay` holds when `needle` occurs as a contiguous
sublist of `hay`; matches JS `hay.includes(needle)` (in particular the empty
needle is always contained). -/
def strContainsList (needle : List Char) : List Char → Bool
  | [] => strStartsWith needle []
  | c :: rest => strStartsWith needle (c :: rest) || strContainsList needle rest

/-- Model of JS `hay.includes(needle)`. -/
def strContains (hay needle : String) : Bool :=
  strContainsList needle.data hay.data

/-! ## Data model: the scraped/canonical record (`AgencyEmail` in the source) -/

/-- The record shape of `src/data/agency-emails.json`, the `AgencyEmail`
interface shared by the scrapers, the merge script and the resolver. -/
structure AgencyEmail where
  name : String
  abbreviation : String
  parentAgency : String
  email : String
  website : String
  foiaOfficer : String
  address : String
  phone : String
  componentId : String
deriving DecidableEq, Repr

/-! ## Agency Resolver (`findAgencyEmail` in SubmitStep.tsx / submit route) -/

/-- First tier: `agencies.find((a) => a.componentId === agencyId)`. -/
def byIdTier (agencyId : String) (agencies : List AgencyEmail) : Option AgencyEmail :=
  agencies.find? (fun a => a.componentId == agencyId)

/-- Second tier: `agencies.find((a) => a.name.toLowerCase() === agencyName.toLowerCase())`. -/
def byNameTier (agencyName : String) (agencies : List AgencyEmail) : Option AgencyEmail :=
  agencies.find? (fun a => lowerStr a.name == lowerStr agencyName)

/-- The third tier's predicate: case-insensitive substring containment in
either direction. -/
def substrTierPred (agencyName : String) (a : AgencyEmail) : Bool :=
  strContains (lowerStr a.name) (lowerStr agencyName) ||
    strContains (lowerStr agencyName) (lowerStr a.name)

/-- Third tier: `agencies.find((a) => a.name...includes(...) || ...includes(...))`. -/
def substrTier (agencyName : String) (agencies : List AgencyEmail) : Option AgencyEmail :=
  agencies.find? (substrTierPred agencyName)

/-- `if (x && x.email) return x.email;` — a tier's find result becomes a hit
only when the found record's `email` is a non-empty (truthy) string. -/
def tierEmail : Option AgencyEmail → Option String
  | some a => if a.email = "" then none else some a.email
  | none => none

/-- `findAgencyEmail(agencyId, agencyName)` from SubmitStep.tsx (identical
logic in the submit route): three tiers tried in order, each returning its
found record's email only when that email is non-empty, otherwise falling
through to the next tier; `null` when all three fall through. -/
def findAgencyEmail (agencyId agencyName : String) (agencies : List AgencyEmail) :
    Option String :=
  match tierEmail (byIdTier agencyId agencies) with
  | some e => some e
  | none =>
    match tierEmail (byNameTier agencyName agencies) with
    | some e => some e
    | none => tierEmail (substrTier agencyName agencies)

/-- The delivery channel decision. -/
inductive Channel where
  | EMAIL
  | PORTAL
deriving DecidableEq, Repr

/-- The observable resolution result: channel plus the email address carried
by the EMAIL channel (`handleSubmit` / the submit route branch on
`agencyEmail` being null). -/
structure ResolutionResult where
  channel : Channel
  emailAddress : Option String
deriving DecidableEq, Repr

/-- `handleSubmit`: a non-null `findAgencyEmail` result selects the email
channel carrying that address; a null result selects the portal channel with
no address. -/
def resolve (agencyId agencyName : String) (agencies : List AgencyEmail) :
    ResolutionResult :=
  match findAgencyEmail agencyId agencyName agencies with
  | some e => ⟨Channel.EMAIL, some e⟩
  | none => ⟨Channel.PORTAL, none⟩

/-- A record matches the query when any of the three tier predicates holds
for it (exact id, case-insensitive exact name, case-insensitive substring
containment in either direction). -/
def matchesQuery (agencyId agencyName : String) (a : AgencyEmail) : Bool :=
  a.componentId == agencyId || lowerStr a.name == lowerStr agencyName ||
    substrTierPred agencyName a

/-- The `emails` list of the canonical record exposed to the UI
(ReviewStep.tsx: `emails: a.email ? [a.email] : []`). -/
def emailsOf (a : AgencyEmail) : List String :=
  if a.email = "" then [] else [a.email]

/-! ## General lemmas about the tier combinators -/

/-- `List.find?` returns exactly the first element of the list, in stored
order, satisfying the predicate. -/
theorem find?_first_iff {α : Type} {p : α → Bool} :
    ∀ {l : List α} {a : α},
      l.find? p = some a ↔
        ∃ i, l.get? i = some a ∧ p a = true ∧
          ∀ j, j < i → ∀ b, l.get? j = some b → p b = false := by
  intro l
  induction l with
  | nil => intro a; simp
  | cons h t ih =>
    intro a
    cases hp : p h with
    | true =>
      rw [List.find?_cons_of_pos _ hp]
      constructor
      · rintro ⟨rfl⟩
        exact ⟨0, rfl, hp, fun j hj => absurd hj (Nat.not_lt_zero j)⟩
      · rintro ⟨i, hget, hpa, hfirst⟩
        cases i with
        | zero =>
          simp at hget
          rw [hget]
        | succ k =>
          have := hfirst 0 (Nat.succ_pos k) h rfl
          rw [hp] at this; cases this
    | false =>
      rw [List.find?_cons_of_neg _ (by simp [hp])]
      rw [ih]
      constructor
      · rintro ⟨i, hget, hpa, hfirst⟩
        refine ⟨i + 1, by simpa using hget, hpa, ?_⟩
        intro j hj b hb
        cases j with
        | zero => simp at hb; exact hb ▸ hp
        | succ k =>
          exact hfirst k (Nat.lt_of_succ_lt_succ hj) b (by simpa using hb)
      · rintro ⟨i, hget, hpa, hfirst⟩
        cases i with
        | zero =>
          simp at hget
          rw [hget] at hp; rw [hpa] at hp; cases hp
        | succ k =>
          refine ⟨k, by simpa using hget, hpa, ?_⟩
          intro j hj b hb
          exact hfirst (j + 1) (Nat.succ_lt_succ hj) b (by simpa using hb)

/-- A tier produces an email exactly when it found a record whose email is
non-empty. -/
theorem tierEmail_eq_some {o : Option AgencyEmail} {e : String} :
    tierEmail o = some e ↔ ∃ a, o = some a ∧ a.email = e ∧ a.email ≠ "" := by
  cases o with
  | none => simp [tierEmail]
  | some a =>
    simp only [tierEmail]
    by_cases h : a.email = ""
    · simp [h]
    · simp [h]

/-- A tier produces no email exactly when it found nothing or the found
record's email is empty. -/
theorem tierEmail_eq_none {o : Option AgencyEmail} :
    tierEmail o = none ↔ o = none ∨ ∃ a, o = some a ∧ a.email = "" := by
  cases o with
  | none => simp [tierEmail]
  | some a =>
    simp only [tierEmail]
    by_cases h : a.email = "" <;> simp [h]

/-- `findAgencyEmail` is `null` exactly when all three tiers fall through. -/
theorem findAgencyEmail_eq_none {agencyId agencyName : String}
    {d : List AgencyEmail} :
    findAgencyEmail agencyId agencyName d = none ↔
      tierEmail (byIdTier agencyId d) = none ∧
      tierEmail (byNameTier agencyName d) = none ∧
      tierEmail (substrTier agencyName d) = none := by
  unfold findAgencyEmail
  cases h1 : tierEmail (byIdTier agencyId d) <;>
    cases h2 : tierEmail (byNameTier agencyName d) <;> simp

/-- Case analysis on where a non-null `findAgencyEmail` result came from. -/
theorem findAgencyEmail_eq_some_cases {agencyId agencyName : String}
    {d : List AgencyEmail} {e : String}
    (h : findAgencyEmail agencyId agencyName d = some e) :
    tierEmail (byIdTier agencyId d) = some e ∨
    tierEmail (byNameTier agencyName d) = some e ∨
    tierEmail (substrTier agencyName d) = some e := by
  unfold findAgencyEmail at h
  cases h1 : tierEmail (byIdTier agencyId d) <;> simp [h1] at h
  · cases h2 : tierEmail (byNameTier agencyName d) <;> simp [h2] at h
    · exact Or.inr (Or.inr h)
    · exact Or.inr (Or.inl (congrArg some h))
  · exact Or.inl (congrArg some h)

/-- The resolution result is the EMAIL channel with a given address exactly
when the tier cascade produced that address. -/
theorem resolve_eq_email_iff {agencyId agencyName : String}
    {d : List AgencyEmail} {e : String} :
    resolve agencyId agencyName d = ⟨Channel.EMAIL, some e⟩ ↔
      findAgencyEmail agencyId agencyName d = some e := by
  unfold resolve
  cases h : findAgencyEmail agencyId agencyName d <;> simp

/-- The resolution result is the PORTAL channel (with no address) exactly
when the tier cascade produced nothing. -/
theorem resolve_eq_portal_iff {agencyId agencyName : String}
    {d : List AgencyEmail} :
    resolve agencyId agencyName d = ⟨Channel.PORTAL, none⟩ ↔
      findAgencyEmail agencyId agencyName d = none := by
  unfold resolve
  cases h : findAgencyEmail agencyId agencyName d <;> simp

/-- The empty needle is always contained (JS `s.includes("")` is `true`). -/
theorem strContainsList_nil_needle : ∀ hay, strContainsList [] hay = true := by
  intro hay
  cases hay <;> simp [strContainsList, strStartsWith]

/-- JS `s.includes("")` is `true` for every `s`. -/
theorem strContains_empty (s : String) : strContains s "" = true :=
  strContainsList_nil_needle s.data

/-- Lowercasing preserves emptiness. -/
theorem lowerStr_eq_empty_iff (s : String) : lowerStr s = "" ↔ s = "" := by
  cases s with
  | mk data =>
    constructor
    · intro h
      have : data.map Char.toLower = [] := congrArg String.data h
      have hd : data = [] := List.map_eq_nil_iff.mp this
      rw [hd]
    · intro h
      rw [h]
      rfl

/-! ## Claim C1: channel decision vs. matching records -/

/-- Claim C1 as stated: whenever a record matches the query, a non-empty
emails list on it forces the EMAIL channel carrying its first email, and an
empty emails list (or no match at all) forces the PORTAL channel with no
address. -/
def claimC1 : Prop :=
  ∀ (agencyId agencyName : String) (d : List AgencyEmail),
    ∀ a ∈ d, matchesQuery agencyId agencyName a = true →
      (a.email ≠ "" →
        resolve agencyId agencyName d = ⟨Channel.EMAIL, some a.email⟩) ∧
      (a.email = "" →
        resolve agencyId agencyName d = ⟨Channel.PORTAL, none⟩)

/-- A record matching by unitId only, with no email. -/
def c1recNoEmail : AgencyEmail := ⟨"Zeta", "", "", "", "", "", "", "", "a1"⟩

/-- A record matching by exact name, with an email. -/
def c1recWithEmail : AgencyEmail :=
  ⟨"Beta", "", "", "beta@agency.gov", "", "", "", "", "a2"⟩

/-- **C1, counterexample.** On the directory `[Zeta(id a1, no email),
Beta(id a2, email beta@agency.gov)]`, the query `(unitId "a1", name "Beta")`
matches the `Zeta` record (exact unitId) whose emails list is empty, so the
claim as stated demands the PORTAL channel; but the code skips the id tier
(its hit has no email) and returns EMAIL `beta@agency.gov` via the name
tier. -/
theorem c1_counterexample : ¬ claimC1 := fun h => by
  have hc :=
    (h "a1" "Beta" [c1recNoEmail, c1recWithEmail] c1recNoEmail
      (by decide) (by decide)).2 (by decide)
  exact absurd hc (by decide)

/-- **C1 (amended).** A matched record with empty emails does not force the
PORTAL channel: the resolver skips any tier whose first matching record has
an empty email and consults lower tiers. What does hold: every EMAIL result
carries the (singleton-list) email of some record matching the query; the
PORTAL result (with no address) occurs exactly when each tier's hit, when
present, has an empty email; and when no record matches the query at all the
result is PORTAL with no address. -/
theorem c1_amended (agencyId agencyName : String) (d : List AgencyEmail) :
    (∀ e, resolve agencyId agencyName d = ⟨Channel.EMAIL, some e⟩ →
      ∃ a ∈ d, matchesQuery agencyId agencyName a = true ∧ a.email = e ∧
        emailsOf a = [e]) ∧
    (resolve agencyId agencyName d = ⟨Channel.PORTAL, none⟩ ↔
      tierEmail (byIdTier agencyId d) = none ∧
      tierEmail (byNameTier agencyName d) = none ∧
      tierEmail (substrTier agencyName d) = none) ∧
    ((∀ a ∈ d, matchesQuery agencyId agencyName a = false) →
      resolve agencyId agencyName d = ⟨Channel.PORTAL, none⟩) := by
  refine ⟨?_, ?_, ?_⟩
  · intro e hres
    have hfind := resolve_eq_email_iff.mp hres
    have hmk : ∀ a : AgencyEmail, a.email = e → a.email ≠ "" →
        a.email = e ∧ emailsOf a = [e] := by
      intro a he hne
      refine ⟨he, ?_⟩
      rw [emailsOf, if_neg hne, he]
    rcases findAgencyEmail_eq_some_cases hfind with h | h | h <;>
      rcases tierEmail_eq_some.mp h with ⟨a, hfound, hemail, hne⟩
    · have hp : a.componentId = agencyId := by
        simpa using List.find?_some hfound
      exact ⟨a, List.mem_of_find?_eq_some hfound,
        by simp [matchesQuery, hp], hmk a hemail hne⟩
    · have hp : lowerStr a.name = lowerStr agencyName := by
        simpa using List.find?_some hfound
      exact ⟨a, List.mem_of_find?_eq_some hfound,
        by simp [matchesQuery, hp], hmk a hemail hne⟩
    · have hp : substrTierPred agencyName a = true := List.find?_some hfound
      exact ⟨a, List.mem_of_find?_eq_some hfound,
        by simp [matchesQuery, hp], hmk a hemail hne⟩
  · rw [resolve_eq_portal_iff, findAgencyEmail_eq_none]
  · intro hnone
    apply resolve_eq_portal_iff.mpr
    apply findAgencyEmail_eq_none.mpr
    have hno : ∀ a ∈ d,
        a.componentId ≠ agencyId ∧ lowerStr a.name ≠ lowerStr agencyName ∧
          substrTierPred agencyName a = false := by
      intro a ha
      have := hnone a ha
      simpa [matchesQuery, and_assoc] using this
    refine ⟨?_, ?_, ?_⟩ <;> rw [tierEmail_eq_none] <;> left
    · exact List.find?_eq_none.mpr fun a ha => by simpa using (hno a ha).1
    · exact List.find?_eq_none.mpr fun a ha => by simpa using (hno a ha).2.1
    · exact List.find?_eq_none.mpr fun a ha => by simp [(hno a ha).2.2]

/-- A directory record matching nothing in the witness query. -/
def c1portalRec : AgencyEmail :=
  ⟨"Office of Widgets", "", "", "w@widgets.gov", "", "", "", "", "w9"⟩

/-- Witness for the amended C1: a query matching no record resolves to the
PORTAL channel with no address. -/
theorem c1_amended_witness :
    resolve "zz" "Qqq" [c1portalRec] = ⟨Channel.PORTAL, none⟩ :=
  (c1_amended "zz" "Qqq" [c1portalRec]).2.2 (by decide)

/-! ## Claim C2: tier order and tie-break -/

/-- The result the claim predicts once a record has been selected: EMAIL
with its first email when the emails list is non-empty, PORTAL otherwise. -/
def recordResult (r : AgencyEmail) : ResolutionResult :=
  if r.email = "" then ⟨Channel.PORTAL, none⟩ else ⟨Channel.EMAIL, some r.email⟩

/-- Claim C2 as stated: the three matchers are evaluated strictly in order
and the first tier that produces a hit (a record satisfying its predicate)
determines the returned record — hence the result. -/
def claimC2 : Prop :=
  ∀ (agencyId agencyName : String) (d : List AgencyEmail),
    (∀ r, byIdTier agencyId d = some r →
      resolve agencyId agencyName d = recordResult r) ∧
    (byIdTier agencyId d = none →
      ∀ r, byNameTier agencyName d = some r →
        resolve agencyId agencyName d = recordResult r) ∧
    (byIdTier agencyId d = none → byNameTier agencyName d = none →
      ∀ r, substrTier agencyName d = some r →
        resolve agencyId agencyName d = recordResult r)

/-- A record hit by the unitId tier, with no email. -/
def c2recNoEmail : AgencyEmail := ⟨"Yankee", "", "", "", "", "", "", "", "b1"⟩

/-- A record hit by the exact-name tier, with an email. -/
def c2recWithEmail : AgencyEmail :=
  ⟨"Delta", "", "", "delta@agency.gov", "", "", "", "", "b2"⟩

/-- **C2, counterexample.** On `[Yankee(id b1, no email), Delta(id b2,
email delta@agency.gov)]` and query `(unitId "b1", name "Delta")`, the first
tier hits the `Yankee` record, so the claim as stated says that record
determines the result (PORTAL, as it has no email); but the code falls
through to the name tier and returns EMAIL `delta@agency.gov`. -/
theorem c2_counterexample : ¬ claimC2 := fun h => by
  have hc := (h "b1" "Delta" [c2recNoEmail, c2recWithEmail]).1 c2recNoEmail
    (by decide)
  exact absurd hc (by decide)

/-- The claimed-example directory: Department of Energy stored before its
Office of Inspector General. -/
def doeRecord : AgencyEmail :=
  ⟨"Department of Energy", "", "", "doe-foia@hq.energy.gov", "", "", "", "", "d1"⟩

/-- The Office of IG record of the claimed example. -/
def doeIgRecord : AgencyEmail :=
  ⟨"Department of Energy Office of IG", "", "", "ig-foia@hq.energy.gov", "", "",
    "", "", "d2"⟩

/-- **C2 (amended).** A tier determines the result only when the first
record in stored order satisfying its predicate has a non-empty email;
otherwise the tier is skipped entirely and later tiers are consulted. The
substring tier considers exactly the first record in the directory's stored
order that satisfies its containment predicate. On a directory holding
"Department of Energy" before "Department of Energy Office of IG" (both with
emails), resolving the name "Department of Energy" returns the former via
the exact-name tier. -/
theorem c2_amended (agencyId agencyName : String) (d : List AgencyEmail) :
    (∀ r, byIdTier agencyId d = some r → r.email ≠ "" →
      resolve agencyId agencyName d = ⟨Channel.EMAIL, some r.email⟩) ∧
    (tierEmail (byIdTier agencyId d) = none →
      ∀ r, byNameTier agencyName d = some r → r.email ≠ "" →
        resolve agencyId agencyName d = ⟨Channel.EMAIL, some r.email⟩) ∧
    (tierEmail (byIdTier agencyId d) = none →
      tierEmail (byNameTier agencyName d) = none →
      ∀ r, substrTier agencyName d = some r → r.email ≠ "" →
        resolve agencyId agencyName d = ⟨Channel.EMAIL, some r.email⟩) ∧
    (∀ r, substrTier agencyName d = some r ↔
      ∃ i, d.get? i = some r ∧ substrTierPred agencyName r = true ∧
        ∀ j, j < i → ∀ b, d.get? j = some b →
          substrTierPred agencyName b = false) ∧
    resolve "q0" "Department of Energy" [doeRecord, doeIgRecord] =
      ⟨Channel.EMAIL, some "doe-foia@hq.energy.gov"⟩ := by
  refine ⟨?_, ?_, ?_, ?_, by decide⟩
  · intro r hr hne
    have h1 : tierEmail (byIdTier agencyId d) = some r.email := by
      rw [hr]; simp [tierEmail, hne]
    apply resolve_eq_email_iff.mpr
    simp [findAgencyEmail, h1]
  · intro h1 r hr hne
    have h2 : tierEmail (byNameTier agencyName d) = some r.email := by
      rw [hr]; simp [tierEmail, hne]
    apply resolve_eq_email_iff.mpr
    simp [findAgencyEmail, h1, h2]
  · intro h1 h2 r hr hne
    have h3 : tierEmail (substrTier agencyName d) = some r.email := by
      rw [hr]; simp [tierEmail, hne]
    apply resolve_eq_email_iff.mpr
    simp [findAgencyEmail, h1, h2, h3]
  · intro r
    simp only [substrTier]
    exact find?_first_iff

/-- A one-record directory whose record is hit by the unitId tier. -/
def c2witnessRec : AgencyEmail :=
  ⟨"Widget Bureau", "", "", "w@x.gov", "", "", "", "", "w1"⟩

/-- Witness for the amended C2: a unitId hit with a non-empty email yields
the EMAIL channel carrying that record's email. -/
theorem c2_amended_witness :
    resolve "w1" "whatever" [c2witnessRec] =
      ⟨Channel.EMAIL, some c2witnessRec.email⟩ :=
  (c2_amended "w1" "whatever" [c2witnessRec]).1 c2witnessRec
    (by decide) (by decide)

/-! ## Claim C10: empty-name query -/

/-- **C10.** With an empty-string name, an id matching no record, and no
stored record having an empty name: the id and exact-name tiers find
nothing, the substring containment predicate holds for every record
(`"x".includes("")` is true), and the result is determined by the first
record in stored order alone — its email when non-empty, otherwise null
(PORTAL), with no caller error. -/
theorem c10_confirmed (agencyId : String) (r : AgencyEmail)
    (rest : List AgencyEmail)
    (hid : ∀ a ∈ r :: rest, a.componentId ≠ agencyId)
    (hname : ∀ a ∈ r :: rest, a.name ≠ "") :
    findAgencyEmail agencyId "" (r :: rest) =
      (if r.email = "" then none else some r.email) ∧
    resolve agencyId "" (r :: rest) =
      (if r.email = "" then (⟨Channel.PORTAL, none⟩ : ResolutionResult)
       else ⟨Channel.EMAIL, some r.email⟩) ∧
    (∀ a ∈ r :: rest, substrTierPred "" a = true) := by
  have hidN : byIdTier agencyId (r :: rest) = none :=
    List.find?_eq_none.mpr fun a ha => by simpa using hid a ha
  have hnameN : byNameTier "" (r :: rest) = none := by
    apply List.find?_eq_none.mpr
    intro a ha
    intro hc
    have hl : lowerStr a.name = lowerStr "" := by simpa using hc
    exact hname a ha ((lowerStr_eq_empty_iff a.name).mp hl)
  have hsub : ∀ a ∈ r :: rest, substrTierPred "" a = true := by
    intro a ha
    have h1 : strContains (lowerStr a.name) (lowerStr "") = true :=
      strContains_empty (lowerStr a.name)
    simp [substrTierPred, h1]
  have hsubT : substrTier "" (r :: rest) = some r := by
    simp only [substrTier]
    exact List.find?_cons_of_pos _ (hsub r (by simp))
  have t1 : tierEmail (byIdTier agencyId (r :: rest)) = none := by
    rw [hidN]; rfl
  have t2 : tierEmail (byNameTier "" (r :: rest)) = none := by
    rw [hnameN]; rfl
  have t3 : tierEmail (substrTier "" (r :: rest)) =
      if r.email = "" then none else some r.email := by
    rw [hsubT]; rfl
  refine ⟨?_, ?_, hsub⟩
  · simp [findAgencyEmail, t1, t2, t3]
  · by_cases he : r.email = "" <;>
      simp [resolve, findAgencyEmail, t1, t2, t3, he]

/-- First stored record for the C10 witness (has an email). -/
def c10rec1 : AgencyEmail :=
  ⟨"Gamma Office", "", "", "gamma@agency.gov", "", "", "", "", "g1"⟩

/-- Second stored record for the C10 witness (never consulted). -/
def c10rec2 : AgencyEmail := ⟨"Delta Office", "", "", "", "", "", "", "", "g2"⟩

/-- Witness for C10 at a concrete directory and empty-name query. -/
theorem c10_witness :
    findAgencyEmail "nomatch" "" [c10rec1, c10rec2] =
      (if c10rec1.email = "" then none else some c10rec1.email) ∧
    resolve "nomatch" "" [c10rec1, c10rec2] =
      (if c10rec1.email = "" then (⟨Channel.PORTAL, none⟩ : ResolutionResult)
       else ⟨Channel.EMAIL, some c10rec1.email⟩) := by
  have h := c10_confirmed "nomatch" c10rec1 [c10rec2] (by decide) (by decide)
  exact ⟨h.1, h.2.1⟩

/-! ## Reconciliation Engine (`merge-agency-data.ts`) -/

/-- The registry-side attributes the merge script stores per component
(`fetchAgencyData` sets exactly these fields of `Partial<AgencyEmail>`). -/
structure ApiEntry where
  name : String
  abbreviation : String
  parentAgency : String
  foiaOfficer : String
  phone : String
  address : String
  website : String
deriving DecidableEq, Repr

/-- JS `a || b` on strings: the first operand when truthy (non-empty),
else the second. -/
def orElseStr (a b : String) : String := if a = "" then b else a

/-- One merged record: the `merged.push({...})` body of the merge script's
main loop, in the branch where the API map holds the scraped entry's
componentId. Note `website: entry.website || apiEntry.website || ""` — the
scraped website comes first. -/
def mergeEntry (entry : AgencyEmail) (apiEntry : ApiEntry) : AgencyEmail where
  name := orElseStr apiEntry.name entry.name
  abbreviation := orElseStr apiEntry.abbreviation entry.abbreviation
  parentAgency := orElseStr apiEntry.parentAgency entry.parentAgency
  email := entry.email
  website := orElseStr entry.website (orElseStr apiEntry.website "")
  foiaOfficer := orElseStr apiEntry.foiaOfficer entry.foiaOfficer
  address := orElseStr apiEntry.address entry.address
  phone := orElseStr apiEntry.phone entry.phone
  componentId := entry.componentId

/-- The merge script's main loop over the scraped list, looking up the API
data map (modelled as a function, as a JS `Map` is) by componentId. -/
def merge (scraped : List AgencyEmail) (apiData : String → Option ApiEntry) :
    List AgencyEmail :=
  scraped.map fun entry =>
    match apiData entry.componentId with
    | some apiEntry => mergeEntry entry apiEntry
    | none => entry

/-- The claim's field rule, stated from the spec's words: the primary
source's value when non-empty, else the secondary source's value, else
empty. -/
def specPrefer (primary secondary : String) : String :=
  if primary ≠ "" then primary else secondary

/-- `orElseStr` implements the spec's preference rule. -/
theorem orElseStr_eq_specPrefer (a b : String) :
    orElseStr a b = specPrefer a b := by
  by_cases h : a = "" <;> simp [orElseStr, specPrefer, h]

/-- Claim C3 as stated: for a scraped record whose unitId has a registry
record, every one of name, abbreviation, parent-agency name, website,
postal address and phone is registry-preferred, and the emails list is the
singleton of the scraped email (or empty). -/
def claimC3 : Prop :=
  ∀ (scraped : List AgencyEmail) (apiData : String → Option ApiEntry)
    (i : Nat) (entry : AgencyEmail) (apiEntry : ApiEntry),
    scraped.get? i = some entry →
    apiData entry.componentId = some apiEntry →
    ∃ m, (merge scraped apiData).get? i = some m ∧
      m.name = specPrefer apiEntry.name entry.name ∧
      m.abbreviation = specPrefer apiEntry.abbreviation entry.abbreviation ∧
      m.parentAgency = specPrefer apiEntry.parentAgency entry.parentAgency ∧
      m.website = specPrefer apiEntry.website entry.website ∧
      m.address = specPrefer apiEntry.address entry.address ∧
      m.phone = specPrefer apiEntry.phone entry.phone ∧
      emailsOf m = (if entry.email = "" then [] else [entry.email])

/-- A scraped record carrying its own website. -/
def c3scrapedRec : AgencyEmail :=
  ⟨"", "", "", "foia@example.gov", "https://scraped.example.gov", "", "", "",
    "m1"⟩

/-- The matching registry record, carrying a different website. -/
def c3apiRec : ApiEntry :=
  ⟨"Example Agency", "EA", "Parent Dept", "", "", "",
    "https://registry.example.gov"⟩

/-- The registry map of the C3 counterexample. -/
def c3apiData : String → Option ApiEntry := fun cid =>
  if cid = "m1" then some c3apiRec else none

/-- **C3, counterexample.** When both sources carry a website, the merge
keeps the scraped one (`entry.website || apiEntry.website || ""`), not the
registry one the claim demands. -/
theorem c3_counterexample : ¬ claimC3 := fun h => by
  obtain ⟨m, hm, -, -, -, hweb, -, -, -⟩ :=
    h [c3scrapedRec] c3apiData 0 c3scrapedRec c3apiRec rfl (by decide)
  have h0 : (merge [c3scrapedRec] c3apiData).get? 0 =
      some (mergeEntry c3scrapedRec c3apiRec) := by decide
  rw [h0] at hm
  have hm' := Option.some.inj hm
  rw [← hm'] at hweb
  exact absurd hweb (by decide)

/-- **C3 (amended).** As claimed for name, abbreviation, parent-agency
name, postal address and phone (registry preferred, then scraped, then
empty) and for the scraped-authoritative email with its singleton emails
list — but the website field prefers the **scraped** value when non-empty,
falling back to the registry value, else empty. -/
theorem c3_amended (scraped : List AgencyEmail)
    (apiData : String → Option ApiEntry) (i : Nat) (entry : AgencyEmail)
    (apiEntry : ApiEntry) (hget : scraped.get? i = some entry)
    (hapi : apiData entry.componentId = some apiEntry) :
    (merge scraped apiData).get? i = some (mergeEntry entry apiEntry) ∧
    (mergeEntry entry apiEntry).name = specPrefer apiEntry.name entry.name ∧
    (mergeEntry entry apiEntry).abbreviation =
      specPrefer apiEntry.abbreviation entry.abbreviation ∧
    (mergeEntry entry apiEntry).parentAgency =
      specPrefer apiEntry.parentAgency entry.parentAgency ∧
    (mergeEntry entry apiEntry).website =
      specPrefer entry.website apiEntry.website ∧
    (mergeEntry entry apiEntry).address =
      specPrefer apiEntry.address entry.address ∧
    (mergeEntry entry apiEntry).phone =
      specPrefer apiEntry.phone entry.phone ∧
    (mergeEntry entry apiEntry).email = entry.email ∧
    emailsOf (mergeEntry entry apiEntry) =
      (if entry.email = "" then [] else [entry.email]) ∧
    (merge scraped apiData).length = scraped.length := by
  have hmap : (merge scraped apiData).get? i =
      some (mergeEntry entry apiEntry) := by
    rw [merge, List.get?_map, hget]
    simp [hapi]
  have hw : orElseStr entry.website (orElseStr apiEntry.website "") =
      specPrefer entry.website apiEntry.website := by
    by_cases h1 : entry.website = "" <;>
      by_cases h2 : apiEntry.website = "" <;>
        simp [orElseStr, specPrefer, h1, h2]
  refine ⟨hmap, ?_, ?_, ?_, ?_, ?_, ?_, rfl, ?_, ?_⟩
  · exact orElseStr_eq_specPrefer _ _
  · exact orElseStr_eq_specPrefer _ _
  · exact orElseStr_eq_specPrefer _ _
  · exact hw
  · exact orElseStr_eq_specPrefer _ _
  · exact orElseStr_eq_specPrefer _ _
  · rfl
  · rw [merge, List.length_map]

/-- Witness for the amended C3 at the concrete scraped/registry pair. -/
theorem c3_amended_witness :
    (merge [c3scrapedRec] c3apiData).get? 0 =
      some (mergeEntry c3scrapedRec c3apiRec) ∧
    (mergeEntry c3scrapedRec c3apiRec).website =
      specPrefer c3scrapedRec.website c3apiRec.website := by
  have h := c3_amended [c3scrapedRec] c3apiData 0 c3scrapedRec c3apiRec
    rfl (by decide)
  exact ⟨h.1, h.2.2.2.2.1⟩

/-! ## Extraction Heuristics: the `page.evaluate` body of the scrapers

The email regex is `/[\w.-]+@[\w.-]+\.(gov|mil|us)/gi`: a leftmost scan
collecting non-overlapping greedy matches.  The model below mirrors its
backtracking behaviour: the first `[\w.-]+` must be the maximal word-char
run ending right before an `@` (interior characters are all in the class,
so no other backtrack can succeed), and the second `[\w.-]+` greedily picks
the **latest** dot inside the maximal run after the `@` that is followed by
one of the alternatives `gov`, `mil`, `us` (case-insensitively). -/

/-- The regex character class `[\w.-]` (with `\w = [A-Za-z0-9_]`). -/
def isWordChar (c : Char) : Bool :=
  c.isAlpha || c.isDigit || c == '_' || c == '.' || c == '-'

/-- Case-insensitive prefix test (for the `i` regex flag). -/
def startsWithCI (pat cs : List Char) : Bool :=
  strStartsWith pat (cs.map Char.toLower)

/-- The `(gov|mil|us)` alternation, tried in the regex's order; returns the
length of the alternative matched at the head of `cs`. -/
def tldMatch (cs : List Char) : Option Nat :=
  if startsWithCI ['g', 'o', 'v'] cs then some 3
  else if startsWithCI ['m', 'i', 'l'] cs then some 3
  else if startsWithCI ['u', 's'] cs then some 2
  else none

/-- Greedy backtracking of the second `[\w.-]+`: the largest `m ≥ 1` such
that `run2` has a `.` at index `m` followed by a TLD alternative; returns
`(m, tld length)`. -/
def findDotTldFrom (run2 : List Char) : Nat → Option (Nat × Nat)
  | 0 => none
  | m + 1 =>
    match run2.drop (m + 1) with
    | '.' :: tail =>
      match tldMatch tail with
      | some tlen => some (m + 1, tlen)
      | none => findDotTldFrom run2 m
    | _ => findDotTldFrom run2 m

/-- Entry point of the greedy dot/TLD search over the whole run. -/
def findDotTld (run2 : List Char) : Option (Nat × Nat) :=
  findDotTldFrom run2 run2.length

/-- Try the email regex at the current position; on success return the
matched token and the remaining input after it. -/
def matchEmailAt (cs : List Char) : Option (List Char × List Char) :=
  let run1 := cs.takeWhile isWordChar
  match cs.drop run1.length with
  | '@' :: afterAt =>
    if run1.isEmpty then none
    else
      let run2 := afterAt.takeWhile isWordChar
      match findDotTld run2 with
      | some (m, tlen) =>
        let tokenLen := run1.length + 1 + m + 1 + tlen
        some (cs.take tokenLen, cs.drop tokenLen)
      | none => none
  | _ => none

/-- The global (`g` flag) scan: at each position try a match; collect the
token and continue after it, else advance one character.  Each step consumes
at least one character, so `fuel = cs.length` (see `scanEmails`) always
suffices and the fuel-exhaustion branch is unreachable. -/
def scanEmailsFuel : Nat → List Char → List String
  | 0, _ => []
  | fuel + 1, cs =>
    match matchEmailAt cs with
    | some (tok, rest) => String.mk tok :: scanEmailsFuel fuel rest
    | none =>
      match cs with
      | [] => []
      | _ :: tail => scanEmailsFuel fuel tail

/-- `pageText.match(/[\w.-]+@[\w.-]+\.(gov|mil|us)/gi)`, as the list of
matched tokens in document order (`[]` standing for a `null` result). -/
def scanEmails (cs : List Char) : List String :=
  scanEmailsFuel cs.length cs

/-- `href.replace("mailto:", "")`: remove the first occurrence of the
literal `mailto:`. -/
def dropMailtoFirst : List Char → List Char
  | [] => []
  | c :: rest =>
    if strStartsWith ("mailto:".data) (c :: rest) then
      (c :: rest).drop ("mailto:".data).length
    else c :: dropMailtoFirst rest

/-- `s.split("?")[0]`: the prefix before the first `?`. -/
def takeBeforeQuery : List Char → List Char
  | [] => []
  | c :: rest => if c == '?' then [] else c :: takeBeforeQuery rest

/-- `href.replace("mailto:", "").split("?")[0]`. -/
def mailtoAddress (href : String) : String :=
  String.mk (takeBeforeQuery (dropMailtoFirst href.data))

/-- The mailto loop of the `page.evaluate` body: the first href containing
`@` whose raw text does **not** contain the case-sensitive literal
`National.FOIAPortal`, transformed into an address. -/
def mailtoPick (hrefs : List String) : Option String :=
  (hrefs.find? fun h =>
    strContains h "@" && !(strContains h "National.FOIAPortal")).map
    mailtoAddress

/-- The text branch of the `page.evaluate` body: scan the rendered text for
email tokens, drop those containing (case-insensitively)
`national.foiaportal`, prefer one containing `foia` or `request`, else take
the first remaining one. -/
def textPick (pageText : String) : String :=
  let tokens := scanEmails pageText.data
  if tokens.length = 0 then ""
  else
    let agencyEmails := tokens.filter fun e =>
      !(strContains (lowerStr e) "national.foiaportal")
    if agencyEmails.length = 0 then ""
    else
      match agencyEmails.find? (fun e =>
        strContains (lowerStr e) "foia" ||
          strContains (lowerStr e) "request") with
      | some e => e
      | none => agencyEmails.headD ""

/-- The email selection of the `page.evaluate` body: the mailto pick when
it yields a truthy (non-empty) address, else the text pick. -/
def extractEmail (pageText : String) (hrefs : List String) : String :=
  match mailtoPick hrefs with
  | some e => if e = "" then textPick pageText else e
  | none => textPick pageText

/-! ## Claim C4: extraction priority -/

/-- The claim's notion of being the shared generic intake address: the
address carries `national.foiaportal` in any letter case. -/
def isSharedAddress (e : String) : Bool :=
  strContains (lowerStr e) "national.foiaportal"

/-- The claim's candidate list from the rendered text: email-shaped tokens
restricted to .gov/.mil/.us domains, excluding the shared address. -/
def textCandidates (pageText : String) : List String :=
  (scanEmails pageText.data).filter fun e => !(isSharedAddress e)

/-- The claim's text-tier selection: a candidate containing `foia` or
`request` if one exists, else the first candidate in document order, else
the empty string. -/
def textPickSpec (pageText : String) : String :=
  match (textCandidates pageText).find? (fun e =>
    strContains (lowerStr e) "foia" || strContains (lowerStr e) "request") with
  | some e => e
  | none => (textCandidates pageText).headD ""

/-- Claim C4's fixed priority, stated from its words: the first mailto
target whose **address** is not the shared generic intake address,
otherwise the text tier, otherwise the empty string. -/
def extractClaimC4 (pageText : String) (hrefs : List String) : String :=
  match (hrefs.map mailtoAddress).find? (fun e => !(isSharedAddress e)) with
  | some e => e
  | none => textPickSpec pageText

/-- Claim C4 as stated: the code's extraction follows that priority. -/
def claimC4 : Prop :=
  ∀ (text : String) (hrefs : List String),
    extractEmail text hrefs = extractClaimC4 text hrefs

/-- **C4, counterexample.** For the single href
`mailto:foia@example.gov?subject=National.FOIAPortal` the mailto target's
address is `foia@example.gov`, which is not the shared address, so the
claim selects it; but the code tests the raw href (query string included)
for the literal `National.FOIAPortal`, rejects this href, and returns the
empty string. -/
theorem c4_counterexample : ¬ claimC4 := fun h => by
  have hc := h "" ["mailto:foia@example.gov?subject=National.FOIAPortal"]
  exact absurd hc (by decide)

/-- The text tier of the code equals the claim's text tier. -/
theorem textPick_eq_spec (t : String) : textPick t = textPickSpec t := by
  unfold textPick textPickSpec textCandidates isSharedAddress
  by_cases h0 : (scanEmails t.data).length = 0
  · rw [if_pos h0]
    rw [List.length_eq_zero] at h0
    rw [h0]
    rfl
  · rw [if_neg h0]
    by_cases h1 : ((scanEmails t.data).filter fun e =>
        !(strContains (lowerStr e) "national.foiaportal")).length = 0
    · rw [if_pos h1]
      rw [List.length_eq_zero] at h1
      rw [h1]
      rfl
    · rw [if_neg h1]

/-- **C4 (amended).** The priority is as claimed except in the mailto tier:
the code filters the **raw href** — query string included — by containment
of `@` and by absence of the case-sensitive literal `National.FOIAPortal`,
then emits the href with the first `mailto:` removed and truncated at the
first `?`; when that is the empty string the text tier still runs.  The
text tier and the empty-string fallback are exactly as claimed. -/
theorem c4_amended (text : String) (hrefs : List String) :
    extractEmail text hrefs =
      match hrefs.find? (fun h =>
        strContains h "@" && !(strContains h "National.FOIAPortal")) with
      | some h =>
        if mailtoAddress h = "" then textPickSpec text else mailtoAddress h
      | none => textPickSpec text := by
  unfold extractEmail mailtoPick
  cases hf : hrefs.find? (fun h =>
      strContains h "@" && !(strContains h "National.FOIAPortal")) with
  | none => simp [textPick_eq_spec]
  | some h => simp [textPick_eq_spec]

/-! ## Claim C5: the shared address never escapes -/

/-- Claim C5 as stated: no extracted email ever carries the shared generic
intake address, in any letter case. -/
def claimC5 : Prop :=
  ∀ (text : String) (hrefs : List String),
    isSharedAddress (extractEmail text hrefs) = false

/-- **C5, counterexample.** A mailto href carrying the shared address in
lower case (`mailto:national.foiaportal@usdoj.gov`) slips through the
mailto tier's case-sensitive literal test and is returned, so the extracted
email does contain the shared address. -/
theorem c5_counterexample : ¬ claimC5 := fun h => by
  have hc := h "" ["mailto:national.foiaportal@usdoj.gov"]
  exact absurd hc (by decide)

/-- **C5 (amended).** Every non-empty result of the text tier is free of
the shared address in any letter case, and every mailto-tier result comes
from an href that contains `@` and does not contain the case-sensitive
literal `National.FOIAPortal` — a differently-cased occurrence can still be
returned. -/
theorem c5_amended (text : String) (hrefs : List String) :
    (textPick text ≠ "" → isSharedAddress (textPick text) = false) ∧
    (∀ e, mailtoPick hrefs = some e →
      ∃ h, h ∈ hrefs ∧ strContains h "@" = true ∧
        strContains h "National.FOIAPortal" = false ∧ e = mailtoAddress h) := by
  constructor
  · intro hne
    unfold textPick at hne ⊢
    by_cases h0 : (scanEmails text.data).length = 0
    · rw [if_pos h0] at hne
      exact absurd rfl hne
    · rw [if_neg h0] at hne ⊢
      by_cases h1 : ((scanEmails text.data).filter fun e =>
          !(strContains (lowerStr e) "national.foiaportal")).length = 0
      · rw [if_pos h1] at hne
        exact absurd rfl hne
      · rw [if_neg h1] at hne ⊢
        cases hfind : ((scanEmails text.data).filter fun e =>
            !(strContains (lowerStr e) "national.foiaportal")).find? (fun e =>
              strContains (lowerStr e) "foia" ||
                strContains (lowerStr e) "request") with
        | some e =>
          have hmem := List.mem_of_find?_eq_some hfind
          have hp := (List.mem_filter.mp hmem).2
          simp only [hfind]
          simpa [isSharedAddress] using hp
        | none =>
          simp only [hfind]
          cases hl : (scanEmails text.data).filter fun e =>
              !(strContains (lowerStr e) "national.foiaportal") with
          | nil => rw [hl] at h1; exact absurd rfl h1
          | cons x xs =>
            have hmem : x ∈ (scanEmails text.data).filter fun e =>
                !(strContains (lowerStr e) "national.foiaportal") := by
              rw [hl]; exact List.mem_cons_self x xs
            have hp := (List.mem_filter.mp hmem).2
            simpa [isSharedAddress, List.headD] using hp
  · intro e he
    unfold mailtoPick at he
    cases hf : hrefs.find? (fun h =>
        strContains h "@" && !(strContains h "National.FOIAPortal")) with
    | none => rw [hf] at he; cases he
    | some h =>
      rw [hf] at he
      have hpred := List.find?_some hf
      rw [Bool.and_eq_true] at hpred
      refine ⟨h, List.mem_of_find?_eq_some hf, hpred.1, ?_, ?_⟩
      · simpa using hpred.2
      · exact (Option.some.inj he).symm

/-- Witness for the amended C5: a page text holding a FOIA address yields
it (shared-address-free), and a clean mailto href is picked with its
address. -/
theorem c5_amended_witness :
    isSharedAddress (textPick "Contact foia@agency.gov for records") = false ∧
    ∃ h, h ∈ ["mailto:info@agency.gov"] ∧ strContains h "@" = true ∧
      strContains h "National.FOIAPortal" = false ∧
      "info@agency.gov" = mailtoAddress h :=
  ⟨(c5_amended "Contact foia@agency.gov for records" []).1 (by decide),
   (c5_amended "" ["mailto:info@agency.gov"]).2 "info@agency.gov" (by decide)⟩

/-! ## Registry Page Fetcher: the two pagination loops -/

/-- One registry page response: a success carrying records, a non-success
HTTP status (`!response.ok`), or a thrown transport error. -/
inductive RegResponse (α : Type) where
  | success (records : List α)
  | failureStatus
  | transportError
deriving DecidableEq, Repr

/-- The cached route fetcher's loop (the `GET` handler of the agencies
route): request pages in order accumulating records; a page with fewer than
50 records is the last; after a page the loop also stops when the next page
index exceeds the safety limit 20 (`if (page > 20) break`); a non-success
response or a transport failure is **thrown**, discarding everything
(`none`).  Returns the accumulated records together with the list of pages
requested.  The `fuel` argument only bounds the modelled recursion depth:
the safety limit stops the loop after at most 21 pages, so the 21 supplied
by `routeFetch` makes the fuel-exhaustion branch unreachable. -/
def routeFetchAux {α : Type} (registry : Nat → RegResponse α) :
    Nat → Nat → Option (List α × List Nat)
  | 0, _ => some ([], [])
  | fuel + 1, page =>
    match registry page with
    | RegResponse.success comps =>
      if comps.length < 50 then some (comps, [page])
      else if 20 < page + 1 then some (comps, [page])
      else
        match routeFetchAux registry fuel (page + 1) with
        | some (rest, pages) => some (comps ++ rest, page :: pages)
        | none => none
    | _ => none

/-- The route fetcher run from page 0. -/
def routeFetch {α : Type} (registry : Nat → RegResponse α) :
    Option (List α × List Nat) :=
  routeFetchAux registry 21 0

/-- `fetchAllAgencies` of `fetch-agencies.ts`: pages until an **empty**
page (`components.length === 0`) or a non-success status — both end the
enumeration keeping the pages already fetched; a transport failure is not
caught anywhere in the script and propagates (`Except.error`), losing the
run.  The real loop has no page bound at all, so `fuel` bounds the modelled
iterations. -/
def fetchScriptAux {α : Type} (registry : Nat → RegResponse α) :
    Nat → Nat → Except Unit (List α × List Nat)
  | 0, _ => Except.ok ([], [])
  | fuel + 1, page =>
    match registry page with
    | RegResponse.transportError => Except.error ()
    | RegResponse.failureStatus => Except.ok ([], [page])
    | RegResponse.success comps =>
      if comps.length = 0 then Except.ok ([], [page])
      else
        match fetchScriptAux registry fuel (page + 1) with
        | Except.error e => Except.error e
        | Except.ok (rest, pages) => Except.ok (comps ++ rest, page :: pages)

/-- The script fetcher run from page 0. -/
def fetchAllAgencies {α : Type} (registry : Nat → RegResponse α)
    (fuel : Nat) : Except Unit (List α × List Nat) :=
  fetchScriptAux registry fuel 0

/-- Every page the script requests from a run starting at `page` is
at least `page`. -/
theorem fetchScriptAux_pages_ge {α : Type} (registry : Nat → RegResponse α) :
    ∀ (fuel page : Nat) (recs : List α) (pages : List Nat),
      fetchScriptAux registry fuel page = Except.ok (recs, pages) →
      ∀ q ∈ pages, page ≤ q := by
  intro fuel
  induction fuel with
  | zero =>
    intro page recs pages h q hq
    simp only [fetchScriptAux, Except.ok.injEq, Prod.mk.injEq] at h
    rw [← h.2] at hq
    cases hq
  | succ n ih =>
    intro page recs pages h q hq
    cases hr : registry page with
    | transportError => simp [fetchScriptAux, hr] at h
    | failureStatus =>
      simp only [fetchScriptAux, hr, Except.ok.injEq, Prod.mk.injEq] at h
      rw [← h.2] at hq
      simp at hq
      omega
    | success comps =>
      by_cases hc : comps.length = 0
      · simp only [fetchScriptAux, hr, if_pos hc, Except.ok.injEq,
          Prod.mk.injEq] at h
        rw [← h.2] at hq
        simp at hq
        omega
      · cases hrec : fetchScriptAux registry n (page + 1) with
        | error e => simp [fetchScriptAux, hr, if_neg hc, hrec] at h
        | ok pr =>
          obtain ⟨rest, pages'⟩ := pr
          simp only [fetchScriptAux, hr, if_neg hc, hrec, Except.ok.injEq,
            Prod.mk.injEq] at h
          rw [← h.2] at hq
          rcases List.mem_cons.mp hq with rfl | hq'
          · exact Nat.le_refl q
          · have := ih (page + 1) rest pages' hrec q hq'
            omega

/-- Every page the route fetcher requests from a run starting at `page` is
at least `page`. -/
theorem routeFetchAux_pages_ge {α : Type} (registry : Nat → RegResponse α) :
    ∀ (fuel page : Nat) (recs : List α) (pages : List Nat),
      routeFetchAux registry fuel page = some (recs, pages) →
      ∀ q ∈ pages, page ≤ q := by
  intro fuel
  induction fuel with
  | zero =>
    intro page recs pages h q hq
    simp only [routeFetchAux, Option.some.injEq, Prod.mk.injEq] at h
    rw [← h.2] at hq
    cases hq
  | succ n ih =>
    intro page recs pages h q hq
    cases hr : registry page with
    | transportError => simp [routeFetchAux, hr] at h
    | failureStatus => simp [routeFetchAux, hr] at h
    | success comps =>
      by_cases h50 : comps.length < 50
      · simp only [routeFetchAux, hr, if_pos h50, Option.some.injEq,
          Prod.mk.injEq] at h
        rw [← h.2] at hq
        simp at hq
        omega
      · by_cases hlim : 20 < page + 1
        · simp only [routeFetchAux, hr, if_neg h50, if_pos hlim,
            Option.some.injEq, Prod.mk.injEq] at h
          rw [← h.2] at hq
          simp at hq
          omega
        · cases hrec : routeFetchAux registry n (page + 1) with
          | none =>
            simp [routeFetchAux, hr, if_neg h50, if_neg hlim, hrec] at h
          | some pr =>
            obtain ⟨rest, pages'⟩ := pr
            simp only [routeFetchAux, hr, if_neg h50, if_neg hlim, hrec,
              Option.some.injEq, Prod.mk.injEq] at h
            rw [← h.2] at hq
            rcases List.mem_cons.mp hq with rfl | hq'
            · exact Nat.le_refl q
            · have := ih (page + 1) rest pages' hrec q hq'
              omega

/-- In the route fetcher a page with fewer than 50 records is the last page
requested. -/
theorem routeFetch_short_last {α : Type} (registry : Nat → RegResponse α) :
    ∀ (fuel page : Nat) (recs : List α) (pages : List Nat) (p : Nat)
      (comps : List α),
      routeFetchAux registry fuel page = some (recs, pages) → p ∈ pages →
      registry p = RegResponse.success comps → comps.length < 50 →
      ∀ q ∈ pages, q ≤ p := by
  intro fuel
  induction fuel with
  | zero =>
    intro page recs pages p comps h hp hreg hlen q hq
    simp only [routeFetchAux, Option.some.injEq, Prod.mk.injEq] at h
    rw [← h.2] at hp
    cases hp
  | succ n ih =>
    intro page recs pages p comps h hp hreg hlen q hq
    cases hr : registry page with
    | transportError => simp [routeFetchAux, hr] at h
    | failureStatus => simp [routeFetchAux, hr] at h
    | success comps0 =>
      by_cases h50 : comps0.length < 50
      · simp only [routeFetchAux, hr, if_pos h50, Option.some.injEq,
          Prod.mk.injEq] at h
        rw [← h.2] at hp hq
        simp at hp hq
        omega
      · by_cases hlim : 20 < page + 1
        · simp only [routeFetchAux, hr, if_neg h50, if_pos hlim,
            Option.some.injEq, Prod.mk.injEq] at h
          rw [← h.2] at hp hq
          simp at hp hq
          omega
        · cases hrec : routeFetchAux registry n (page + 1) with
          | none =>
            simp [routeFetchAux, hr, if_neg h50, if_neg hlim, hrec] at h
          | some pr =>
            obtain ⟨rest, pages'⟩ := pr
            simp only [routeFetchAux, hr, if_neg h50, if_neg hlim, hrec,
              Option.some.injEq, Prod.mk.injEq] at h
            rw [← h.2] at hp hq
            rcases List.mem_cons.mp hp with rfl | hp'
            · rw [hreg] at hr
              have heq : comps = comps0 := by
                injection hr.symm with h'
                exact h'.symm
              rw [heq] at hlen
              exact absurd hlen h50
            · rcases List.mem_cons.mp hq with rfl | hq'
              · have := routeFetchAux_pages_ge registry n (q + 1) rest
                  pages' hrec p hp'
                omega
              · exact ih (page + 1) rest pages' p comps hrec hp' hreg hlen
                  q hq'

/-- In the script fetcher an **empty** page is the last page requested. -/
theorem fetchScript_empty_last {α : Type} (registry : Nat → RegResponse α) :
    ∀ (fuel page : Nat) (recs : List α) (pages : List Nat) (p : Nat),
      fetchScriptAux registry fuel page = Except.ok (recs, pages) →
      p ∈ pages → registry p = RegResponse.success [] →
      ∀ q ∈ pages, q ≤ p := by
  intro fuel
  induction fuel with
  | zero =>
    intro page recs pages p h hp hreg q hq
    simp only [fetchScriptAux, Except.ok.injEq, Prod.mk.injEq] at h
    rw [← h.2] at hp
    cases hp
  | succ n ih =>
    intro page recs pages p h hp hreg q hq
    cases hr : registry page with
    | transportError => simp [fetchScriptAux, hr] at h
    | failureStatus =>
      simp only [fetchScriptAux, hr, Except.ok.injEq, Prod.mk.injEq] at h
      rw [← h.2] at hp hq
      simp at hp hq
      omega
    | success comps =>
      by_cases hc : comps.length = 0
      · simp only [fetchScriptAux, hr, if_pos hc, Except.ok.injEq,
          Prod.mk.injEq] at h
        rw [← h.2] at hp hq
        simp at hp hq
        omega
      · cases hrec : fetchScriptAux registry n (page + 1) with
        | error e => simp [fetchScriptAux, hr, if_neg hc, hrec] at h
        | ok pr =>
          obtain ⟨rest, pages'⟩ := pr
          simp only [fetchScriptAux, hr, if_neg hc, hrec, Except.ok.injEq,
            Prod.mk.injEq] at h
          rw [← h.2] at hp hq
          rcases List.mem_cons.mp hp with rfl | hp'
          · rw [hreg] at hr
            simp only [RegResponse.success.injEq] at hr
            rw [← hr] at hc
            exact absurd rfl hc
          · rcases List.mem_cons.mp hq with rfl | hq'
            · have := fetchScriptAux_pages_ge registry n (q + 1) rest
                pages' hrec p hp'
              omega
            · exact ih (page + 1) rest pages' p hrec hp' hreg q hq'

/-- In the script fetcher a non-success status page is the last page
requested (the loop breaks, keeping the partial result). -/
theorem fetchScript_failure_last {α : Type} (registry : Nat → RegResponse α) :
    ∀ (fuel page : Nat) (recs : List α) (pages : List Nat) (p : Nat),
      fetchScriptAux registry fuel page = Except.ok (recs, pages) →
      p ∈ pages → registry p = RegResponse.failureStatus →
      ∀ q ∈ pages, q ≤ p := by
  intro fuel
  induction fuel with
  | zero =>
    intro page recs pages p h hp hreg q hq
    simp only [fetchScriptAux, Except.ok.injEq, Prod.mk.injEq] at h
    rw [← h.2] at hp
    cases hp
  | succ n ih =>
    intro page recs pages p h hp hreg q hq
    cases hr : registry page with
    | transportError => simp [fetchScriptAux, hr] at h
    | failureStatus =>
      simp only [fetchScriptAux, hr, Except.ok.injEq, Prod.mk.injEq] at h
      rw [← h.2] at hp hq
      simp at hp hq
      omega
    | success comps =>
      by_cases hc : comps.length = 0
      · simp only [fetchScriptAux, hr, if_pos hc, Except.ok.injEq,
          Prod.mk.injEq] at h
        rw [← h.2] at hp hq
        simp at hp hq
        omega
      · cases hrec : fetchScriptAux registry n (page + 1) with
        | error e => simp [fetchScriptAux, hr, if_neg hc, hrec] at h
        | ok pr =>
          obtain ⟨rest, pages'⟩ := pr
          simp only [fetchScriptAux, hr, if_neg hc, hrec, Except.ok.injEq,
            Prod.mk.injEq] at h
          rw [← h.2] at hp hq
          rcases List.mem_cons.mp hp with rfl | hp'
          · rw [hreg] at hr
            cases hr
          · rcases List.mem_cons.mp hq with rfl | hq'
            · have := fetchScriptAux_pages_ge registry n (q + 1) rest
                pages' hrec p hp'
              omega
            · exact ih (page + 1) rest pages' p hrec hp' hreg q hq'

/-- The script fetcher surfaces an error only when some page's request
threw a transport error. -/
theorem fetchScript_error_has_transport {α : Type}
    (registry : Nat → RegResponse α) :
    ∀ (fuel page : Nat),
      fetchScriptAux registry fuel page = Except.error () →
      ∃ p, registry p = RegResponse.transportError := by
  intro fuel
  induction fuel with
  | zero => intro page h; simp [fetchScriptAux] at h
  | succ n ih =>
    intro page h
    cases hr : registry page with
    | transportError => exact ⟨page, hr⟩
    | failureStatus => simp [fetchScriptAux, hr] at h
    | success comps =>
      by_cases hc : comps.length = 0
      · simp [fetchScriptAux, hr, hc] at h
      · cases hrec : fetchScriptAux registry n (page + 1) with
        | error e =>
          cases e
          exact ih (page + 1) hrec
        | ok pr =>
          obtain ⟨rest, pages'⟩ := pr
          simp [fetchScriptAux, hr, hc, hrec] at h

/-- The route fetcher returns `none` only when some page's response was a
non-success status or a transport failure. -/
theorem routeFetch_none_has_failure {α : Type}
    (registry : Nat → RegResponse α) :
    ∀ (fuel page : Nat),
      routeFetchAux registry fuel page = none →
      ∃ p, registry p = RegResponse.failureStatus ∨
        registry p = RegResponse.transportError := by
  intro fuel
  induction fuel with
  | zero => intro page h; simp [routeFetchAux] at h
  | succ n ih =>
    intro page h
    cases hr : registry page with
    | transportError => exact ⟨page, Or.inr hr⟩
    | failureStatus => exact ⟨page, Or.inl hr⟩
    | success comps =>
      by_cases h50 : comps.length < 50
      · simp [routeFetchAux, hr, h50] at h
      · by_cases hlim : 20 < page + 1
        · simp [routeFetchAux, hr, h50, hlim] at h
        · cases hrec : routeFetchAux registry n (page + 1) with
          | none => exact ih (page + 1) hrec
          | some pr =>
            obtain ⟨rest, pages'⟩ := pr
            simp [routeFetchAux, hr, h50, hlim, hrec] at h

/-- When the route fetcher succeeds, every page it requested answered with
a success response. -/
theorem routeFetch_some_pages_success {α : Type}
    (registry : Nat → RegResponse α) :
    ∀ (fuel page : Nat) (recs : List α) (pages : List Nat),
      routeFetchAux registry fuel page = some (recs, pages) →
      ∀ p ∈ pages, ∃ comps, registry p = RegResponse.success comps := by
  intro fuel
  induction fuel with
  | zero =>
    intro page recs pages h p hp
    simp only [routeFetchAux, Option.some.injEq, Prod.mk.injEq] at h
    rw [← h.2] at hp
    cases hp
  | succ n ih =>
    intro page recs pages h p hp
    cases hr : registry page with
    | transportError => simp [routeFetchAux, hr] at h
    | failureStatus => simp [routeFetchAux, hr] at h
    | success comps =>
      by_cases h50 : comps.length < 50
      · simp only [routeFetchAux, hr, if_pos h50, Option.some.injEq,
          Prod.mk.injEq] at h
        rw [← h.2] at hp
        simp at hp
        rw [hp]
        exact ⟨comps, hr⟩
      · by_cases hlim : 20 < page + 1
        · simp only [routeFetchAux, hr, if_neg h50, if_pos hlim,
            Option.some.injEq, Prod.mk.injEq] at h
          rw [← h.2] at hp
          simp at hp
          rw [hp]
          exact ⟨comps, hr⟩
        · cases hrec : routeFetchAux registry n (page + 1) with
          | none =>
            simp [routeFetchAux, hr, if_neg h50, if_neg hlim, hrec] at h
          | some pr =>
            obtain ⟨rest, pages'⟩ := pr
            simp only [routeFetchAux, hr, if_neg h50, if_neg hlim, hrec,
              Option.some.injEq, Prod.mk.injEq] at h
            rw [← h.2] at hp
            rcases List.mem_cons.mp hp with rfl | hp'
            · exact ⟨comps, hr⟩
            · exact ih (page + 1) rest pages' hrec p hp'

/-! ## Claim C6: short page terminates pagination -/

/-- A mocked registry: page 0 returns 30 records (fewer than the page size
50), every later page is empty. -/
def registry30 : Nat → RegResponse Nat := fun p =>
  if p = 0 then RegResponse.success (List.range 30)
  else RegResponse.success []

/-- Claim C6 as stated, for both fetchers: a page with fewer than 50
records (the requested page size) is the last page requested. -/
def claimC6 : Prop :=
  (∀ (registry : Nat → RegResponse Nat) (recs : List Nat)
      (pages : List Nat) (p : Nat) (comps : List Nat),
    routeFetch registry = some (recs, pages) → p ∈ pages →
    registry p = RegResponse.success comps → comps.length < 50 →
    ∀ q ∈ pages, q ≤ p) ∧
  (∀ (registry : Nat → RegResponse Nat) (fuel : Nat) (recs : List Nat)
      (pages : List Nat) (p : Nat) (comps : List Nat),
    fetchAllAgencies registry fuel = Except.ok (recs, pages) → p ∈ pages →
    registry p = RegResponse.success comps → comps.length < 50 →
    ∀ q ∈ pages, q ≤ p)

/-- **C6, counterexample.** Against a registry answering 30 records on page
0 (with `pageSize = 50`), the script fetcher `fetchAllAgencies` requests
page 1 as well — it stops only on an empty page, not on a short one. -/
theorem c6_counterexample : ¬ claimC6 := fun h => by
  have h1 : fetchAllAgencies registry30 5 =
      Except.ok (List.range 30, [0, 1]) := by rfl
  have hc := h.2 registry30 5 (List.range 30) [0, 1] 0 (List.range 30) h1
    (by simp) (by rfl) (by decide) 1 (by simp)
  omega

/-- **C6 (amended).** The cached route fetcher does treat a page with fewer
than 50 records as the last one; the script fetcher stops only when a page
is **empty** (an empty page is its last page), and on the mocked registry
with one 30-record page it issues exactly one further request. -/
theorem c6_amended :
    (∀ (registry : Nat → RegResponse Nat) (recs : List Nat)
        (pages : List Nat) (p : Nat) (comps : List Nat),
      routeFetch registry = some (recs, pages) → p ∈ pages →
      registry p = RegResponse.success comps → comps.length < 50 →
      ∀ q ∈ pages, q ≤ p) ∧
    (∀ (registry : Nat → RegResponse Nat) (fuel : Nat) (recs : List Nat)
        (pages : List Nat) (p : Nat),
      fetchAllAgencies registry fuel = Except.ok (recs, pages) →
      p ∈ pages → registry p = RegResponse.success [] →
      ∀ q ∈ pages, q ≤ p) ∧
    fetchAllAgencies registry30 5 = Except.ok (List.range 30, [0, 1]) := by
  refine ⟨?_, ?_, by rfl⟩
  · intro registry recs pages p comps h hp hreg hlen q hq
    exact routeFetch_short_last registry 21 0 recs pages p comps h hp hreg
      hlen q hq
  · intro registry fuel recs pages p h hp hreg q hq
    exact fetchScript_empty_last registry fuel 0 recs pages p h hp hreg q hq

/-- Witness for the amended C6: the route fetcher stops after the short
page 0 of the mocked registry. -/
theorem c6_amended_witness :
    routeFetch registry30 = some (List.range 30, [0]) ∧ (0 : Nat) ≤ 0 :=
  ⟨by rfl,
   c6_amended.1 registry30 (List.range 30) [0] 0 (List.range 30) (by rfl)
     (by simp) (by rfl) (by decide) 0 (by simp)⟩

/-! ## Claim C7: degrade-not-fail on pagination failures -/

/-- A mocked registry: page 0 returns a full page of 50 records, page 1
answers with a non-success status. -/
def registry50F : Nat → RegResponse Nat := fun p =>
  if p = 0 then RegResponse.success (List.range 50)
  else RegResponse.failureStatus

/-- Claim C7 as stated: neither fetcher ever surfaces a pagination failure
as an error to its caller — the pages already retrieved always come back as
a valid result. -/
def claimC7 : Prop :=
  ∀ (registry : Nat → RegResponse Nat),
    (∃ recs pages, routeFetch registry = some (recs, pages)) ∧
    (∀ fuel, ∃ recs pages,
      fetchAllAgencies registry fuel = Except.ok (recs, pages))

/-- **C7, counterexample.** When page 1 answers with a non-success status,
the cached route fetcher throws (`if (!response.ok) throw ...`), discarding
the 50 records of page 0 and surfacing an error (HTTP 500) to its caller,
instead of returning the partial result. -/
theorem c7_counterexample : ¬ claimC7 := fun h => by
  obtain ⟨recs, pages, hc⟩ := (h registry50F).1
  have hn : routeFetch registry50F = none := by rfl
  rw [hn] at hc
  cases hc

/-- **C7 (amended).** The script fetcher treats a non-success status as the
end of enumeration and keeps the pages already retrieved as a valid
result, and it errors only when a request threw a transport failure (which
the script does not catch).  The route fetcher, by contrast, surfaces
**both** failure kinds as an error, discarding the pages already retrieved;
its successful runs consist exclusively of success responses.  Concretely,
on the mocked registry failing at page 1 the route fetch is an error. -/
theorem c7_amended :
    (∀ (α : Type) (registry : Nat → RegResponse α) (fuel : Nat)
        (recs : List α) (pages : List Nat) (p : Nat),
      fetchAllAgencies registry fuel = Except.ok (recs, pages) →
      p ∈ pages → registry p = RegResponse.failureStatus →
      ∀ q ∈ pages, q ≤ p) ∧
    (∀ (α : Type) (registry : Nat → RegResponse α) (fuel : Nat),
      fetchAllAgencies registry fuel = Except.error () →
      ∃ p, registry p = RegResponse.transportError) ∧
    (∀ (α : Type) (registry : Nat → RegResponse α),
      routeFetch registry = none →
      ∃ p, registry p = RegResponse.failureStatus ∨
        registry p = RegResponse.transportError) ∧
    (∀ (α : Type) (registry : Nat → RegResponse α) (recs : List α)
        (pages : List Nat),
      routeFetch registry = some (recs, pages) →
      ∀ p ∈ pages, ∃ comps, registry p = RegResponse.success comps) ∧
    routeFetch registry50F = none := by
  refine ⟨?_, ?_, ?_, ?_, by rfl⟩
  · intro α registry fuel recs pages p h hp hreg q hq
    exact fetchScript_failure_last registry fuel 0 recs pages p h hp hreg
      q hq
  · intro α registry fuel h
    exact fetchScript_error_has_transport registry fuel 0 h
  · intro α registry h
    exact routeFetch_none_has_failure registry 21 0 h
  · intro α registry recs pages h p hp
    exact routeFetch_some_pages_success registry 21 0 recs pages h p hp

/-- Witness for the amended C7: the script fetcher keeps page 0's records
when page 1 fails with a non-success status, that failing page being the
last one requested. -/
theorem c7_amended_witness :
    fetchAllAgencies registry50F 5 = Except.ok (List.range 50, [0, 1]) ∧
    (1 : Nat) ≤ 1 ∧
    (∃ p, registry50F p = RegResponse.failureStatus ∨
      registry50F p = RegResponse.transportError) :=
  ⟨by rfl,
   c7_amended.1 Nat registry50F 5 (List.range 50) [0, 1] 1 (by rfl)
     (by simp) (by rfl) 1 (by simp),
   c7_amended.2.2.1 Nat registry50F (by rfl)⟩

/-! ## Concurrent Scraper Pool -/

/-- What the browser yields for one unit's page before extraction: the
rendered text, the mailto hrefs present in the markup, and the first `h1`
element's text content (when present). -/
structure PageData where
  innerText : String
  mailtoHrefs : List String
  h1 : Option String

/-- ASCII whitespace for the JS `trim`. -/
def isSpaceChar (c : Char) : Bool :=
  c == ' ' || c == '\t' || c == '\n' || c == '\r'

/-- JS `s.trim()` (ASCII whitespace range). -/
def trimStr (s : String) : String :=
  String.mk (((s.data.dropWhile isSpaceChar).reverse.dropWhile
    isSpaceChar).reverse)

/-- The per-unit page URL template. -/
def agencyUrl (componentId : String) : String :=
  "https://www.foia.gov/request/agency-component/" ++ componentId ++ "/"

/-- The all-empty record the parallel scraper's catch branch returns (only
`website` and `componentId` are filled). -/
def placeholderRecord (componentId : String) : AgencyEmail :=
  ⟨"", "", "", "", agencyUrl componentId, "", "", "", componentId⟩

/-- `scrapeAgencyPage` of the fast parallel scraper: navigate to the unit's
page (the optional reveal-tab click is folded into `navigate`), then
extract name and email; on any navigation/extraction failure return the
placeholder record instead. -/
def scrapeAgencyPage (navigate : String → Option PageData)
    (componentId : String) : AgencyEmail :=
  match navigate componentId with
  | some p =>
    ⟨(p.h1.map trimStr).getD "", "", "",
      extractEmail p.innerText p.mailtoHrefs, agencyUrl componentId, "", "",
      "", componentId⟩
  | none => placeholderRecord componentId

/-- Consecutive slices of 10 (`PARALLEL_TABS`):
`componentIds.slice(i, i + PARALLEL_TABS)` for `i = 0, 10, 20, …`.  Each
step consumes at least one element, so the `fuel = length` supplied by
`batches` makes the fuel-exhaustion branch unreachable. -/
def batchesFuel : Nat → List String → List (List String)
  | 0, _ => []
  | _ + 1, [] => []
  | fuel + 1, c :: rest =>
    (c :: rest).take 10 :: batchesFuel fuel ((c :: rest).drop 10)

/-- The batch decomposition of the parallel scraper's main loop. -/
def batches (l : List String) : List (List String) :=
  batchesFuel l.length l

/-- `scrapeInParallel`: batches are processed one after the other; within a
batch every id is scraped concurrently with no shared state and
`Promise.all` preserves input order, so a batch's results are the per-id
records in order; results are appended batch by batch (the `if (result)`
guard never drops anything since `scrapeAgencyPage` always returns a
record). -/
def scrapeInParallel (navigate : String → Option PageData)
    (componentIds : List String) : List AgencyEmail :=
  ((batches componentIds).map fun b =>
    b.map (scrapeAgencyPage navigate)).flatten

/-- The sequential scraper's loop (`scrapeAgencyEmails` of
`scrape-foia-emails.ts`): for each id the whole navigate/extract/push runs
inside a `try` whose `catch` only logs, so on failure **nothing is pushed**
and the loop moves on.  `task` models the try body's outcome for one id. -/
def scrapeSequential (task : String → Option AgencyEmail)
    (componentIds : List String) : List AgencyEmail :=
  componentIds.filterMap task

/-- With enough fuel the batches concatenate back to the input list. -/
theorem batchesFuel_join :
    ∀ (fuel : Nat) (l : List String), l.length ≤ fuel →
      (batchesFuel fuel l).flatten = l := by
  intro fuel
  induction fuel with
  | zero =>
    intro l hl
    rw [Nat.le_zero] at hl
    rw [List.length_eq_zero] at hl
    rw [hl]
    rfl
  | succ n ih =>
    intro l hl
    cases l with
    | nil => rfl
    | cons c rest =>
      have hlen : ((c :: rest).drop 10).length ≤ n := by
        rw [List.length_drop, List.length_cons]
        rw [List.length_cons] at hl
        omega
      simp only [batchesFuel, List.flatten_cons]
      rw [ih _ hlen]
      exact List.take_append_drop 10 (c :: rest)

/-- The batches concatenate back to the input list. -/
theorem batches_join (l : List String) : (batches l).flatten = l :=
  batchesFuel_join l.length l (Nat.le_refl _)

/-! ## Claim C8: one record per input id -/

/-- Claim C8 as stated, for both scrapers: one record per input id, in
input order (stated through the componentId projection, which both
scrapers set to the input id). -/
def claimC8 : Prop :=
  (∀ (navigate : String → Option PageData) (ids : List String),
    (scrapeInParallel navigate ids).map (fun r => r.componentId) = ids) ∧
  (∀ (task : String → Option AgencyEmail) (ids : List String),
    (∀ i r, task i = some r → r.componentId = i) →
    (scrapeSequential task ids).map (fun r => r.componentId) = ids)

/-- A sequential-scraper task failing on unit `u1` and succeeding
elsewhere. -/
def c8task : String → Option AgencyEmail := fun i =>
  if i = "u1" then none else some (placeholderRecord i)

/-- A task that succeeds always yields a record of its own id. -/
theorem c8task_componentId : ∀ i r, c8task i = some r → r.componentId = i := by
  intro i r hr
  by_cases hi : i = "u1"
  · rw [hi] at hr
    simp [c8task] at hr
  · simp [c8task, hi] at hr
    rw [← hr]
    rfl

/-- **C8, counterexample.** The sequential scraper pushes its record inside
the per-id `try`; when the task for `"u1"` fails, the catch only logs and
the record is omitted — the output is empty instead of one record per input
id. -/
theorem c8_counterexample : ¬ claimC8 := fun h => by
  have hc := h.2 c8task ["u1"] c8task_componentId
  exact absurd hc (by decide)

/-- **C8 (amended).** The **parallel** scraper does yield exactly one
record per input id in input order (batching by 10 then joining is the
per-id map), a failed task contributing the all-empty placeholder record;
the **sequential** scraper instead omits the record of every failed task,
yielding records exactly for the ids whose task succeeded, in input
order. -/
theorem c8_amended :
    (∀ (navigate : String → Option PageData) (ids : List String),
      scrapeInParallel navigate ids = ids.map (scrapeAgencyPage navigate)) ∧
    (∀ (navigate : String → Option PageData) (ids : List String),
      (scrapeInParallel navigate ids).map (fun r => r.componentId) = ids) ∧
    (∀ (navigate : String → Option PageData) (i : String),
      navigate i = none → scrapeAgencyPage navigate i = placeholderRecord i) ∧
    (∀ (task : String → Option AgencyEmail) (ids : List String),
      (∀ i r, task i = some r → r.componentId = i) →
      (scrapeSequential task ids).map (fun r => r.componentId) =
        ids.filter (fun i => (task i).isSome)) := by
  have hpar : ∀ (navigate : String → Option PageData) (ids : List String),
      scrapeInParallel navigate ids = ids.map (scrapeAgencyPage navigate) := by
    intro navigate ids
    rw [scrapeInParallel, ← List.map_flatten, batches_join]
  have hcomp : ∀ (navigate : String → Option PageData) (i : String),
      (scrapeAgencyPage navigate i).componentId = i := by
    intro navigate i
    unfold scrapeAgencyPage
    cases navigate i <;> rfl
  refine ⟨hpar, ?_, ?_, ?_⟩
  · intro navigate ids
    rw [hpar, List.map_map]
    have : ((fun r : AgencyEmail => r.componentId) ∘
        scrapeAgencyPage navigate) = fun i => i := by
      funext i
      exact hcomp navigate i
    rw [this, List.map_id']
  · intro navigate i h
    unfold scrapeAgencyPage
    rw [h]
  · intro task ids htask
    induction ids with
    | nil => rfl
    | cons i rest ih =>
      cases ht : task i with
      | none =>
        have hrw : scrapeSequential task (i :: rest) =
            scrapeSequential task rest := by
          simp [scrapeSequential, List.filterMap_cons, ht]
        rw [hrw, ih, List.filter_cons]
        simp [ht]
      | some r =>
        have hrw : scrapeSequential task (i :: rest) =
            r :: scrapeSequential task rest := by
          simp [scrapeSequential, List.filterMap_cons, ht]
        rw [hrw, List.map_cons, ih, List.filter_cons, htask i r ht]
        simp [ht]

/-- A navigation function failing on unit `u2` only. -/
def c8navigate : String → Option PageData := fun i =>
  if i = "u2" then none
  else some ⟨"Contact unit@agency.gov", [], some " Unit Office "⟩

/-- Witness for the amended C8: the failed unit gets the placeholder, and
the sequential scraper returns records exactly for succeeding ids. -/
theorem c8_amended_witness :
    scrapeAgencyPage c8navigate "u2" = placeholderRecord "u2" ∧
    (scrapeSequential c8task ["u1", "u2"]).map (fun r => r.componentId) =
      List.filter (fun i => (c8task i).isSome) ["u1", "u2"] :=
  ⟨c8_amended.2.2.1 c8navigate "u2" (by rfl),
   c8_amended.2.2.2 c8task ["u1", "u2"] c8task_componentId⟩

/-! ## Directory listing endpoint (the agencies route `GET`, listing branch) -/

/-- The parent-agency summary embedded in an `AgencyComponent`. -/
structure ACAgency where
  id : String
  name : String
  abbreviation : String
deriving DecidableEq, Repr

/-- The `AgencyComponent` shape the route serves (the fields the listing
filter consults, plus the emails list). -/
structure AgencyComponent where
  id : String
  name : String
  abbreviation : Option String
  agency : ACAgency
  emails : List String
deriving DecidableEq, Repr

/-- `agenciesWithEmail`: the componentIds of scraped entries whose email is
truthy (`a.email && a.email.length > 0`). -/
def agenciesWithEmail (agencyEmails : List AgencyEmail) : List String :=
  (agencyEmails.filter fun a => !(a.email == "")).map fun a => a.componentId

/-- The search filter of the listing branch (all four name/abbreviation
fields, case-insensitively; a missing component abbreviation contributes
nothing). -/
def matchesSearch (searchLower : String) (c : AgencyComponent) : Bool :=
  strContains (lowerStr c.name) searchLower ||
    strContains (lowerStr c.agency.name) searchLower ||
    (match c.abbreviation with
     | some ab => strContains (lowerStr ab) searchLower
     | none => false) ||
    strContains (lowerStr c.agency.abbreviation) searchLower

/-- The listing branch of the agencies route `GET`: keep only cached
components whose id is in `agenciesWithEmail`, apply the search filter when
a truthy search term was given, and return at most the first 20 results
(`results.slice(0, 20)`). -/
def listAgencies (agencyEmails : List AgencyEmail)
    (cachedAgencies : List AgencyComponent) (search : Option String) :
    List AgencyComponent :=
  let emailIds := agenciesWithEmail agencyEmails
  let results := cachedAgencies.filter fun c => emailIds.contains c.id
  let results :=
    match search with
    | some s =>
      if s = "" then results else results.filter (matchesSearch (lowerStr s))
    | none => results
  results.take 20

/-- **C9.** Every record the listing returns has its id in the scraped
email dataset with a non-empty email, and at most 20 records come back per
call, whatever the search term. -/
theorem c9_confirmed (agencyEmails : List AgencyEmail)
    (cachedAgencies : List AgencyComponent) (search : Option String) :
    (∀ c ∈ listAgencies agencyEmails cachedAgencies search,
      ∃ a ∈ agencyEmails, a.componentId = c.id ∧ a.email ≠ "") ∧
    (listAgencies agencyEmails cachedAgencies search).length ≤ 20 := by
  constructor
  · intro c hc
    unfold listAgencies at hc
    have hc2 := List.mem_of_mem_take hc
    have hc3 : c ∈ cachedAgencies.filter fun c =>
        (agenciesWithEmail agencyEmails).contains c.id := by
      cases search with
      | none => exact hc2
      | some s =>
        have hc2' : c ∈ (if s = "" then
            cachedAgencies.filter (fun c =>
              (agenciesWithEmail agencyEmails).contains c.id)
          else
            (cachedAgencies.filter (fun c =>
              (agenciesWithEmail agencyEmails).contains c.id)).filter
              (matchesSearch (lowerStr s))) := hc2
        by_cases hs : s = ""
        · rw [if_pos hs] at hc2'
          exact hc2'
        · rw [if_neg hs] at hc2'
          exact List.mem_of_mem_filter hc2'
    have hid : (agenciesWithEmail agencyEmails).contains c.id = true :=
      (List.mem_filter.mp hc3).2
    have hmem : c.id ∈ agenciesWithEmail agencyEmails := by
      simpa using hid
    unfold agenciesWithEmail at hmem
    obtain ⟨a, ha, haid⟩ := List.mem_map.mp hmem
    obtain ⟨ha2, hane⟩ := List.mem_filter.mp ha
    refine ⟨a, ha2, haid, ?_⟩
    simpa using hane
  · unfold listAgencies
    exact List.length_take_le 20 _

/-- A scraped entry with a non-empty email. -/
def c9email1 : AgencyEmail :=
  ⟨"Alpha Office", "", "", "alpha@agency.gov", "", "", "", "", "x1"⟩

/-- A cached component carried by the listing. -/
def c9comp1 : AgencyComponent :=
  ⟨"x1", "Alpha Office", none, ⟨"p1", "Parent Department", "PD"⟩,
    ["alpha@agency.gov"]⟩

/-- Witness for C9 at a one-entry dataset and cache. -/
theorem c9_witness :
    (∃ a ∈ [c9email1], a.componentId = c9comp1.id ∧ a.email ≠ "") ∧
    (listAgencies [c9email1] [c9comp1] none).length ≤ 20 := by
  have h := c9_confirmed [c9email1] [c9comp1] none
  exact ⟨h.1 c9comp1 (by decide), h.2⟩

end FoiaCreator
